import Mathlib

/-!
Shallow embedding of Event.js (src/event/event.js and the deferjs module
in src/unnamed/part_000).

The registry state `this.events` is a JavaScript object mapping event-name
strings to arrays of `{callback, context}` records; we model it as an
association list with JS-object assignment semantics (updating an existing
key keeps its position, a new key is appended).  JavaScript values that the
code discriminates on (`typeof x === "function"`, truthiness for `||`,
reference equality `===`) are modelled by the inductive `JsVal`, where
`fn`/`obj` carry an identity so that `===` on them is reference equality.

Operations that can throw in JavaScript (`off` dereferences
`this.events[event]` without guarding against a mapping miss) return
`Except String`.
-/

namespace EventJs

/-- JavaScript values as discriminated by the source: `undefined`, `null`,
booleans, numbers, strings, function references and object references.
Reference identity of functions and objects is modelled by a `Nat` id. -/
inductive JsVal where
  | undef : JsVal
  | null : JsVal
  | bool : Bool → JsVal
  | num : Int → JsVal
  | str : String → JsVal
  | fn : Nat → JsVal
  | obj : Nat → JsVal
deriving DecidableEq, Repr

/-- Truthiness of a `JsVal`, as used by the source's `x || y` defaulting. -/
def truthy : JsVal → Bool
  | JsVal.undef => false
  | JsVal.null => false
  | JsVal.bool b => b
  | JsVal.num n => n != 0
  | JsVal.str s => !s.isEmpty
  | JsVal.fn _ => true
  | JsVal.obj _ => true

/-- Test mirroring `typeof v === "function"`. -/
def isFunction : JsVal → Bool
  | JsVal.fn _ => true
  | _ => false

/-- One entry of an event's subscriber array: the record
`{"callback": callback, "context": context}` pushed by `on`. -/
structure Sub where
  callback : JsVal
  context : JsVal
deriving DecidableEq, Repr

/-- The registry state `this.events`: event-name keys to subscriber arrays. -/
abbrev Events : Type := List (String × List Sub)

/-- Property read `this.events[e]`: `none` models `undefined` (key absent). -/
def lookupEv : Events → String → Option (List Sub)
  | [], _ => none
  | (k, v) :: rest, e => if k = e then some v else lookupEv rest e

/-- Property write `this.events[e] = v` with JS-object semantics: an
existing key keeps its position in enumeration order, a new key is
appended at the end. -/
def setEv : Events → String → List Sub → Events
  | [], e, v => [(e, v)]
  | (k, w) :: rest, e, v =>
      if k = e then (e, v) :: rest else (k, w) :: setEv rest e v

/-- Method `on(event, callback, context)` (alias `bind`): a non-function
callback is a no-op; the context defaults through `context || null`; the
subscription record is pushed onto `this.events[event] || []`. -/
def EventMixin.on (st : Events) (event : String) (callback context : JsVal) : Events :=
  if !(isFunction callback) then st
  else
    let context := if truthy context then context else JsVal.null
    setEv st event
      ((lookupEv st event).getD [] ++ [{ callback := callback, context := context }])

/-- Array mutation `arr.splice(x, 1)`: remove the element at index `x`. -/
def spliceOne (l : List Sub) (x : Nat) : List Sub :=
  l.take x ++ l.drop (x + 1)

/-- Backward removal loop of `off`:
`for (x = len - 1; x >= 0; x = x - 1) if (p(arr[x])) arr.splice(x, 1)`.
The second argument is the number of indices still to visit, starting at
the array's length. -/
def offLoop (p : Sub → Bool) : List Sub → Nat → List Sub
  | l, 0 => l
  | l, x + 1 => offLoop p (if (l.get? x).any p then spliceOne l x else l) x

/-- Property-key coercion for `this.events[event]` when `off` is called
with `event === undefined` but another argument present: the key is the
string `"undefined"`. -/
def evKey : Option String → String
  | none => "undefined"
  | some s => s

/-- The TypeError raised when `off` dereferences `this.events[event]`
(`.splice` / `.length`) and the key is absent, i.e. the read gave
`undefined`. -/
def tyErr : String := "TypeError: Cannot read properties of undefined"

/-- Method `off(event, callback, context)` (alias `unbind`), with its
four-way dispatch on which arguments are `undefined`:
1. all three `undefined`: the whole map is reset to empty;
2. callback and context `undefined`: `this.events[event].splice(0, len)`;
3. context `undefined`: backward loop removing entries whose callback
   matches by `===`;
4. otherwise: backward loop removing entries matching both callback and
   context by `===`.
Branches 2–4 dereference `this.events[event]` unguarded, so a missing key
raises a TypeError. -/
def EventMixin.off (st : Events) (event : Option String) (callback context : JsVal) :
    Except String Events :=
  if callback = JsVal.undef ∧ context = JsVal.undef ∧ event = none then
    Except.ok []
  else if callback = JsVal.undef ∧ context = JsVal.undef then
    match lookupEv st (evKey event) with
    | none => Except.error tyErr
    | some _ => Except.ok (setEv st (evKey event) [])
  else if context = JsVal.undef then
    match lookupEv st (evKey event) with
    | none => Except.error tyErr
    | some subs =>
        Except.ok (setEv st (evKey event)
          (offLoop (fun s => s.callback == callback) subs subs.length))
  else
    match lookupEv st (evKey event) with
    | none => Except.error tyErr
    | some subs =>
        Except.ok (setEv st (evKey event)
          (offLoop (fun s => s.callback == callback && s.context == context)
            subs subs.length))

/-- Method `trigger(event)` (alias `fire`): first
`this.events[event] = this.events[event] || []`, then every entry whose
callback is a function is handed to the scheduler via
`defer(defer.bind(callback, ctx))`, in array order.  The result is the
updated registry paired with the list of scheduled (callback, context)
submissions in submission order. -/
def EventMixin.trigger (st : Events) (event : String) : Events × List Sub :=
  let subs := (lookupEv st event).getD []
  (setEv st event subs, subs.filter (fun s => isFunction s.callback))

/-- Host-environment facts relevant to the deferjs module: the four its
detection branches read — `typeof process !== "undefined"`,
`!!process.nextTick`, `typeof window !== "undefined"`,
`!!window.postMessage` — plus whether `window.setTimeout` exists, which
the module's `setTimeout(fn, 0)` fallback relies on but whose presence
the detection code never tests. -/
structure HostEnv where
  processDefined : Bool
  processNextTick : Bool
  windowDefined : Bool
  windowPostMessage : Bool
  windowSetTimeout : Bool
deriving DecidableEq, Repr

/-- The asynchronous scheduling mechanism the deferjs module selects. -/
inductive DeferMechanism where
  | processNextTick : DeferMechanism
  | windowPostMessage : DeferMechanism
  | windowSetTimeout : DeferMechanism
deriving DecidableEq, Repr

/-- Module-initialization body of deferjs (src/unnamed/part_000): prefer
`process.nextTick`; else, with a `window`, prefer `postMessage` messaging
and otherwise the `setTimeout(fn, 0)` fallback; with neither, throw
`Error("Unsupported environment for async events.")`. Note that the
fallback branch is taken unconditionally for a `window` without
`postMessage`: `env.windowSetTimeout` is never consulted, exactly as the
source never tests `setTimeout`'s existence. -/
def defer (env : HostEnv) : Except String DeferMechanism :=
  if env.processDefined && env.processNextTick then
    Except.ok DeferMechanism.processNextTick
  else if env.windowDefined then
    if env.windowPostMessage then
      Except.ok DeferMechanism.windowPostMessage
    else
      Except.ok DeferMechanism.windowSetTimeout
  else
    Except.error "Unsupported environment for async events."

/-- Invariant of the registry: every stored subscription's callback is an
invocable function (`on` never stores anything else). -/
def storedCallbacksInvocable (st : Events) : Prop :=
  ∀ p ∈ st, ∀ sub ∈ p.2, isFunction sub.callback = true

/-- Subscriber array with an adjacent run of two `fn 0` entries under
different contexts, used by the removal witnesses. -/
def sWa : List Sub :=
  [Sub.mk (JsVal.fn 0) JsVal.null, Sub.mk (JsVal.fn 0) (JsVal.obj 1),
    Sub.mk (JsVal.fn 1) JsVal.null]

/-- Two-event registry used by the removal witnesses. -/
def stWab : Events := [("a", sWa), ("b", [Sub.mk (JsVal.fn 0) JsVal.null])]

/-- Subscriber array of the spec's two-context scenario for `"ready"`. -/
def sWready : List Sub :=
  [Sub.mk (JsVal.fn 0) (JsVal.obj 1), Sub.mk (JsVal.fn 0) (JsVal.obj 2)]

/-- Registry of the spec's two-context scenario. -/
def stWready : Events := [("ready", sWready)]

/-! ### Basic lemmas about the registry map -/

theorem lookupEv_setEv_self (st : Events) (e : String) (v : List Sub) :
    lookupEv (setEv st e v) e = some v := by
  induction st with
  | nil => simp [setEv, lookupEv]
  | cons p rest ih =>
      obtain ⟨k, w⟩ := p
      by_cases h : k = e <;> simp [setEv, lookupEv, h, ih]

theorem lookupEv_setEv_ne (st : Events) (e e' : String) (v : List Sub)
    (h : e' ≠ e) : lookupEv (setEv st e v) e' = lookupEv st e' := by
  have hne : ¬ e = e' := fun hh => h hh.symm
  induction st with
  | nil => simp [setEv, lookupEv, hne]
  | cons p rest ih =>
      obtain ⟨k, w⟩ := p
      by_cases hk : k = e
      · subst hk
        simp [setEv, lookupEv, hne]
      · simp only [setEv, hk, if_false, lookupEv]
        by_cases hk' : k = e' <;> simp [hk', ih]

theorem setEv_setEv (st : Events) (e : String) (v w : List Sub) :
    setEv (setEv st e v) e w = setEv st e w := by
  induction st with
  | nil => simp [setEv]
  | cons p rest ih =>
      obtain ⟨k, u⟩ := p
      by_cases h : k = e <;> simp [setEv, h, ih]

theorem setEv_eq_self (st : Events) (e : String) (v : List Sub)
    (h : lookupEv st e = some v) : setEv st e v = st := by
  induction st with
  | nil => simp [lookupEv] at h
  | cons p rest ih =>
      obtain ⟨k, w⟩ := p
      by_cases hk : k = e
      · subst hk
        simp [lookupEv] at h
        simp [setEv, h]
      · simp [lookupEv, hk] at h
        simp [setEv, hk, ih h]

theorem setEv_of_lookup_none (st : Events) (e : String) (v : List Sub)
    (h : lookupEv st e = none) : setEv st e v = st ++ [(e, v)] := by
  induction st with
  | nil => rfl
  | cons p rest ih =>
      obtain ⟨k, w⟩ := p
      by_cases hk : k = e
      · simp [lookupEv, hk] at h
      · simp [lookupEv, hk] at h
        simp [setEv, hk, ih h]

/-! ### The backward removal loop removes exactly the matching entries

Iterating from the last index down to 0 and splicing out each match visits
every element exactly once (removal at index `x` only shifts the
already-visited suffix), so the loop is the filter keeping non-matching
entries. -/

theorem filter_take_succ (q : Sub → Bool) (l : List Sub) (x : Nat)
    (h : x < l.length) :
    (l.take (x + 1)).filter q
      = (l.take x).filter q ++ (if q l[x] then [l[x]] else []) := by
  rw [List.take_succ, List.getElem?_eq_getElem h, List.filter_append]
  congr 1
  by_cases hq : q l[x] <;> simp [Option.toList, List.filter_cons, hq]

theorem offLoop_take (p : Sub → Bool) :
    ∀ (x : Nat) (l : List Sub), x ≤ l.length →
      offLoop p l x = (l.take x).filter (fun s => !(p s)) ++ l.drop x := by
  intro x
  induction x with
  | zero => intro l _; simp [offLoop]
  | succ x ih =>
      intro l hx
      have hlt : x < l.length := hx
      have hget : l[x]? = some l[x] := List.getElem?_eq_getElem hlt
      have htakelen : (l.take x).length = x := by
        simp [List.length_take, Nat.min_eq_left (Nat.le_of_lt hlt)]
      by_cases hp : p l[x]
      · have hstep : offLoop p l (x + 1) = offLoop p (spliceOne l x) x := by
          simp [offLoop, hget, hp]
        have hlen : x ≤ (spliceOne l x).length := by
          simp only [spliceOne, List.length_append, List.length_take,
            List.length_drop]
          omega
        have htake : (spliceOne l x).take x = l.take x :=
          List.take_left' htakelen
        have hdrop : (spliceOne l x).drop x = l.drop (x + 1) :=
          List.drop_left' htakelen
        rw [hstep, ih (spliceOne l x) hlen, htake, hdrop,
          filter_take_succ (fun s => !(p s)) l x hlt]
        simp [hp]
      · have hstep : offLoop p l (x + 1) = offLoop p l x := by
          simp [offLoop, hget, hp]
        rw [hstep, ih l (Nat.le_of_lt hlt),
          filter_take_succ (fun s => !(p s)) l x hlt,
          List.drop_eq_getElem_cons hlt]
        simp [hp]

theorem offLoop_eq_filter (p : Sub → Bool) (l : List Sub) :
    offLoop p l l.length = l.filter (fun s => !(p s)) := by
  have h := offLoop_take p l.length l (Nat.le_refl _)
  simpa using h

theorem filter_idem (p : Sub → Bool) (l : List Sub) :
    (l.filter p).filter p = l.filter p := by
  induction l with
  | nil => rfl
  | cons a t ih => by_cases h : p a <;> simp [List.filter_cons, h, ih]

theorem isFunction_ne_undef {f : JsVal} (h : isFunction f = true) :
    f ≠ JsVal.undef := by
  cases f <;> simp [isFunction] at h ⊢

/-! ### Branch lemmas for `off` -/

theorem off_branch3 (st : Events) (e : String) (f : JsVal) (s : List Sub)
    (hf : f ≠ JsVal.undef) (hs : lookupEv st e = some s) :
    EventMixin.off st (some e) f JsVal.undef
      = Except.ok (setEv st e (s.filter (fun sub => !(sub.callback == f)))) := by
  simp [EventMixin.off, hf, evKey, hs, offLoop_eq_filter]

theorem off_branch4 (st : Events) (e : String) (f c : JsVal) (s : List Sub)
    (hc : c ≠ JsVal.undef) (hs : lookupEv st e = some s) :
    EventMixin.off st (some e) f c
      = Except.ok (setEv st e
          (s.filter (fun sub => !(sub.callback == f && sub.context == c)))) := by
  simp [EventMixin.off, hc, evKey, hs, offLoop_eq_filter]

/-! ### Preservation of the registry invariant

These lemmas justify the invariant hypothesis used for `trigger`: every
state reachable through `on`, `off` and `trigger` stores only function
callbacks. -/

theorem mem_setEv {st : Events} {e : String} {v : List Sub}
    {q : String × List Sub} (h : q ∈ setEv st e v) :
    q = (e, v) ∨ q ∈ st := by
  induction st with
  | nil => simpa [setEv] using h
  | cons p rest ih =>
      obtain ⟨k, w⟩ := p
      by_cases hk : k = e
      · subst hk
        simp [setEv] at h
        rcases h with h | h
        · exact Or.inl (by simp [h])
        · exact Or.inr (List.mem_cons_of_mem _ h)
      · simp [setEv, hk] at h
        rcases h with h | h
        · exact Or.inr (by simp [h])
        · rcases ih h with h' | h'
          · exact Or.inl h'
          · exact Or.inr (List.mem_cons_of_mem _ h')

theorem lookupEv_mem {st : Events} {e : String} {s : List Sub}
    (h : lookupEv st e = some s) : (e, s) ∈ st := by
  induction st with
  | nil => simp [lookupEv] at h
  | cons p rest ih =>
      obtain ⟨k, w⟩ := p
      by_cases hk : k = e
      · subst hk
        simp [lookupEv] at h
        simp [h]
      · simp [lookupEv, hk] at h
        exact List.mem_cons_of_mem _ (ih h)

theorem setEv_preserves_invariant {st : Events} {e : String} {v : List Sub}
    (hst : storedCallbacksInvocable st)
    (hv : ∀ sub ∈ v, isFunction sub.callback = true) :
    storedCallbacksInvocable (setEv st e v) := by
  intro p hp sub hsub
  rcases mem_setEv hp with h | h
  · subst h
    exact hv sub hsub
  · exact hst p h sub hsub

theorem getD_invariant {st : Events} (e : String)
    (hst : storedCallbacksInvocable st) :
    ∀ sub ∈ (lookupEv st e).getD [], isFunction sub.callback = true := by
  cases hlk : lookupEv st e with
  | none => simp
  | some s0 =>
      intro sub hsub
      exact hst (e, s0) (lookupEv_mem hlk) sub (by simpa using hsub)

theorem on_preserves_invariant {st : Events} (e : String) (f c : JsVal)
    (hst : storedCallbacksInvocable st) :
    storedCallbacksInvocable (EventMixin.on st e f c) := by
  by_cases hf : isFunction f = true
  · have hon : EventMixin.on st e f c
        = setEv st e ((lookupEv st e).getD []
            ++ [Sub.mk f (if truthy c then c else JsVal.null)]) := by
      simp [EventMixin.on, hf]
    rw [hon]
    refine setEv_preserves_invariant hst ?_
    intro sub hsub
    rcases List.mem_append.mp hsub with h' | h'
    · exact getD_invariant e hst sub h'
    · have : sub = Sub.mk f (if truthy c then c else JsVal.null) := by
        simpa using h'
      rw [this]
      exact hf
  · have hf' : isFunction f = false := by
      revert hf; cases isFunction f <;> simp
    have : EventMixin.on st e f c = st := by simp [EventMixin.on, hf']
    rw [this]
    exact hst

theorem off_preserves_invariant {st st' : Events} {event : Option String}
    {callback context : JsVal} (hst : storedCallbacksInvocable st)
    (h : EventMixin.off st event callback context = Except.ok st') :
    storedCallbacksInvocable st' := by
  by_cases h1 : callback = JsVal.undef ∧ context = JsVal.undef ∧ event = none
  · simp [EventMixin.off, h1] at h
    subst h
    intro p hp
    simp at hp
  · by_cases h2 : callback = JsVal.undef ∧ context = JsVal.undef
    · have he : event ≠ none := fun hh => h1 ⟨h2.1, h2.2, hh⟩
      cases hlk : lookupEv st (evKey event) with
      | none => simp [EventMixin.off, h1, h2, he, hlk] at h
      | some subs =>
          simp [EventMixin.off, h1, h2, he, hlk] at h
          subst h
          exact setEv_preserves_invariant hst (by simp)
    · by_cases h3 : context = JsVal.undef
      · have hcb : ¬ callback = JsVal.undef := fun hh => h2 ⟨hh, h3⟩
        cases hlk : lookupEv st (evKey event) with
        | none => simp [EventMixin.off, h1, h2, h3, hcb, hlk] at h
        | some subs =>
            simp [EventMixin.off, h1, h2, h3, hcb, hlk, offLoop_eq_filter] at h
            subst h
            refine setEv_preserves_invariant hst ?_
            intro sub hsub
            exact hst (evKey event, subs) (lookupEv_mem hlk) sub
              (List.mem_of_mem_filter hsub)
      · cases hlk : lookupEv st (evKey event) with
        | none => simp [EventMixin.off, h1, h2, h3, hlk] at h
        | some subs =>
            simp [EventMixin.off, h1, h2, h3, hlk, offLoop_eq_filter] at h
            subst h
            refine setEv_preserves_invariant hst ?_
            intro sub hsub
            exact hst (evKey event, subs) (lookupEv_mem hlk) sub
              (List.mem_of_mem_filter hsub)

theorem trigger_preserves_invariant {st : Events} (e : String)
    (hst : storedCallbacksInvocable st) :
    storedCallbacksInvocable (EventMixin.trigger st e).1 := by
  refine setEv_preserves_invariant hst ?_
  exact getD_invariant e hst

/-! ### The claims -/

/-- C1 (code bug): for an event name that was never subscribed, each arity
of `off` that names the event dereferences the missing subscriber array
(`this.events[event].splice` / `.length`) and raises a TypeError, instead
of returning `self` with the registry unchanged as if the sequence were
empty. Shown here on the fresh empty registry for `off("x")`,
`off("x", f)` and `off("x", f, ctx)`. -/
theorem off_missing_event_raises :
    EventMixin.off [] (some "x") JsVal.undef JsVal.undef = Except.error tyErr ∧
    EventMixin.off [] (some "x") (JsVal.fn 0) JsVal.undef
        = Except.error tyErr ∧
    EventMixin.off [] (some "x") (JsVal.fn 0) (JsVal.obj 0)
        = Except.error tyErr :=
  ⟨rfl, rfl, rfl⟩

/-- C3: triggering a never-subscribed event returns normally, schedules no
callback, and leaves the event bound to the empty sequence afterwards. -/
theorem trigger_missing_event_ok (st : Events) (e : String)
    (hs : lookupEv st e = none) :
    EventMixin.trigger st e = (st ++ [(e, [])], []) ∧
      lookupEv (EventMixin.trigger st e).1 e = some [] := by
  constructor
  · simp [EventMixin.trigger, hs, setEv_of_lookup_none st e [] hs]
  · simp [EventMixin.trigger, hs, lookupEv_setEv_self]

/-- C3 witness: triggering `"x"` on a one-event registry that never saw
`"x"`. -/
theorem trigger_missing_event_ok_witness :
    lookupEv [("a", [Sub.mk (JsVal.fn 0) JsVal.null])] "x" = none ∧
      (EventMixin.trigger [("a", [Sub.mk (JsVal.fn 0) JsVal.null])] "x"
          = ([("a", [Sub.mk (JsVal.fn 0) JsVal.null]), ("x", [])], []) ∧
        lookupEv
            (EventMixin.trigger [("a", [Sub.mk (JsVal.fn 0) JsVal.null])] "x").1
            "x" = some []) :=
  ⟨rfl, trigger_missing_event_ok [("a", [Sub.mk (JsVal.fn 0) JsVal.null])] "x" rfl⟩

/-- C6: `on(e, v, ctx)` with a non-invocable `v` stores nothing — the
registry state, including its set of keys, is unchanged — and the call
still returns `self` (it completes normally with the state untouched). -/
theorem on_nonfunction_is_noop (st : Events) (e : String) (v c : JsVal)
    (hv : isFunction v = false) : EventMixin.on st e v c = st := by
  simp [EventMixin.on, hv]

/-- C6 witness: subscribing the number 3 under `"e"` on the empty registry
changes nothing. -/
theorem on_nonfunction_is_noop_witness :
    isFunction (JsVal.num 3) = false ∧
      EventMixin.on [] "e" (JsVal.num 3) (JsVal.obj 0) = [] :=
  ⟨rfl, on_nonfunction_is_noop [] "e" (JsVal.num 3) (JsVal.obj 0) rfl⟩

/-- C8 (counterexample): a host with no `process.nextTick` and a `window`
that has neither `postMessage` nor `setTimeout` offers no asynchronous
scheduling mechanism, yet deferjs does not raise at initialization: the
detection code never tests `setTimeout`'s existence and returns the
`setTimeout(fn, 0)` fallback mechanism for any `window` without
`postMessage`. -/
theorem defer_window_without_primitives_no_error :
    ((HostEnv.mk false false true false false).processDefined
        && (HostEnv.mk false false true false false).processNextTick) = false ∧
      (HostEnv.mk false false true false false).windowPostMessage = false ∧
      (HostEnv.mk false false true false false).windowSetTimeout = false ∧
      defer (HostEnv.mk false false true false false)
        = Except.ok DeferMechanism.windowSetTimeout :=
  ⟨rfl, rfl, rfl, rfl⟩

/-- C8 (amended): when the host has no `process.nextTick` capability and
no `window` object at all, the deferjs module throws its fatal
"Unsupported environment for async events." error at initialization and
never selects a synchronous mechanism; a `window` without `postMessage`,
however, is accepted without raising — the `setTimeout` fallback is
chosen without verifying that `setTimeout` exists. -/
theorem defer_fails_fast_without_async (env : HostEnv)
    (hp : (env.processDefined && env.processNextTick) = false)
    (hw : env.windowDefined = false) :
    defer env = Except.error "Unsupported environment for async events." := by
  simp [defer, hp, hw]

/-- C8 witness for the amended claim: the bare environment with no process
and no window. -/
theorem defer_fails_fast_without_async_witness :
    ((HostEnv.mk false false false false false).processDefined
        && (HostEnv.mk false false false false false).processNextTick) = false ∧
      (HostEnv.mk false false false false false).windowDefined = false ∧
      defer (HostEnv.mk false false false false false)
        = Except.error "Unsupported environment for async events." :=
  ⟨rfl, rfl,
    defer_fails_fast_without_async (HostEnv.mk false false false false false)
      rfl rfl⟩

/-- C10: the only state change `trigger` ever makes is to bind a missing
event to the empty sequence; when the event is present the registry is
returned entirely unchanged, so no subscription of any event is added,
removed or reordered. -/
theorem trigger_state_frame (st : Events) (e : String) :
    (EventMixin.trigger st e).1 =
      match lookupEv st e with
      | some _ => st
      | none => st ++ [(e, [])] := by
  cases h : lookupEv st e with
  | some v => simp [EventMixin.trigger, h, setEv_eq_self st e v h]
  | none => simp [EventMixin.trigger, h, setEv_of_lookup_none st e [] h]

/-- C2: when event `e` has subscriber sequence `s` and every stored
callback is a function — the invariant `on` maintains, since it never
stores a non-function — `trigger e` submits exactly one deferred
invocation per subscription of `s`, each callback paired with its recorded
context, in the order of `s`; in particular a (callback, context) pair
registered twice yields two scheduled invocations. -/
theorem trigger_schedules_each_subscription (st : Events) (e : String)
    (s : List Sub) (hs : lookupEv st e = some s)
    (hfn : ∀ sub ∈ s, isFunction sub.callback = true) :
    (EventMixin.trigger st e).2 = s := by
  simp only [EventMixin.trigger, hs, Option.getD_some]
  exact List.filter_eq_self.mpr hfn

/-- C2 witness: the same (callback, context) pair registered twice under
`"ready"` is scheduled twice, in registration order. -/
theorem trigger_schedules_each_subscription_witness :
    lookupEv [("ready", [Sub.mk (JsVal.fn 0) (JsVal.obj 1),
          Sub.mk (JsVal.fn 0) (JsVal.obj 1)])] "ready"
        = some [Sub.mk (JsVal.fn 0) (JsVal.obj 1),
          Sub.mk (JsVal.fn 0) (JsVal.obj 1)] ∧
      (∀ sub ∈ [Sub.mk (JsVal.fn 0) (JsVal.obj 1),
          Sub.mk (JsVal.fn 0) (JsVal.obj 1)],
        isFunction sub.callback = true) ∧
      (EventMixin.trigger [("ready", [Sub.mk (JsVal.fn 0) (JsVal.obj 1),
            Sub.mk (JsVal.fn 0) (JsVal.obj 1)])] "ready").2
        = [Sub.mk (JsVal.fn 0) (JsVal.obj 1), Sub.mk (JsVal.fn 0) (JsVal.obj 1)] :=
  ⟨rfl, by decide,
    trigger_schedules_each_subscription _ "ready" _ rfl (by decide)⟩

/-- C4: `off(e, f)` with the context omitted removes exactly the
subscriptions under `e` whose callback is reference-equal to `f`,
whatever their contexts — the backward splice loop visits every entry of
any run of adjacent matches exactly once — and every other event's
sequence is untouched. -/
theorem off_callback_removes_all_matching (st : Events) (e : String)
    (f : JsVal) (s : List Sub) (hf : isFunction f = true)
    (hs : lookupEv st e = some s) :
    ∃ st', EventMixin.off st (some e) f JsVal.undef = Except.ok st' ∧
      lookupEv st' e = some (s.filter (fun sub => !(sub.callback == f))) ∧
      ∀ e' : String, e' ≠ e → lookupEv st' e' = lookupEv st e' :=
  ⟨setEv st e (s.filter (fun sub => !(sub.callback == f))),
    off_branch3 st e f s (isFunction_ne_undef hf) hs,
    lookupEv_setEv_self st e _,
    fun e' he' => lookupEv_setEv_ne st e e' _ he'⟩

/-- C4 witness: `f₀` appears twice adjacently under `"a"` with different
contexts; `off("a", f₀)` removes both and leaves `"b"` alone. -/
theorem off_callback_removes_all_matching_witness :
    isFunction (JsVal.fn 0) = true ∧
      lookupEv stWab "a" = some sWa ∧
      (∃ st', EventMixin.off stWab (some "a") (JsVal.fn 0) JsVal.undef
          = Except.ok st' ∧
        lookupEv st' "a"
          = some (sWa.filter (fun sub => !(sub.callback == JsVal.fn 0))) ∧
        ∀ e' : String, e' ≠ "a" → lookupEv st' e' = lookupEv stWab e') ∧
      sWa.filter (fun sub => !(sub.callback == JsVal.fn 0))
        = [Sub.mk (JsVal.fn 1) JsVal.null] :=
  ⟨rfl, rfl,
    off_callback_removes_all_matching stWab "a" (JsVal.fn 0) sWa rfl rfl,
    by decide⟩

/-- C5: `off(e, f, c)` with a supplied context removes exactly the
subscriptions under `e` matching both references; one with callback `f`
but a different context survives, and other events are untouched. -/
theorem off_callback_context_removes_exact (st : Events) (e : String)
    (f c : JsVal) (s : List Sub) (hc : c ≠ JsVal.undef)
    (hs : lookupEv st e = some s) :
    ∃ st', EventMixin.off st (some e) f c = Except.ok st' ∧
      lookupEv st' e
        = some (s.filter (fun sub => !(sub.callback == f && sub.context == c))) ∧
      ∀ e' : String, e' ≠ e → lookupEv st' e' = lookupEv st e' :=
  ⟨setEv st e (s.filter (fun sub => !(sub.callback == f && sub.context == c))),
    off_branch4 st e f c s hc hs,
    lookupEv_setEv_self st e _,
    fun e' he' => lookupEv_setEv_ne st e e' _ he'⟩

/-- C5 witness: the spec scenario — `f₀` registered under `"ready"` with
`ctx₁` and with `ctx₂`; `off("ready", f₀, ctx₁)` leaves exactly the
`ctx₂`-bound subscription. -/
theorem off_callback_context_removes_exact_witness :
    JsVal.obj 1 ≠ JsVal.undef ∧
      lookupEv stWready "ready" = some sWready ∧
      (∃ st', EventMixin.off stWready (some "ready") (JsVal.fn 0) (JsVal.obj 1)
          = Except.ok st' ∧
        lookupEv st' "ready"
          = some (sWready.filter (fun sub =>
              !(sub.callback == JsVal.fn 0 && sub.context == JsVal.obj 1))) ∧
        ∀ e' : String, e' ≠ "ready" → lookupEv st' e' = lookupEv stWready e') ∧
      sWready.filter (fun sub =>
          !(sub.callback == JsVal.fn 0 && sub.context == JsVal.obj 1))
        = [Sub.mk (JsVal.fn 0) (JsVal.obj 2)] :=
  ⟨by decide, rfl,
    off_callback_context_removes_exact stWready "ready" (JsVal.fn 0)
      (JsVal.obj 1) sWready (by decide) rfl,
    by decide⟩

/-- C7: removal is idempotent — chaining a second `off` with identical
arguments after a first yields exactly the outcome of the single call:
when the first call succeeds the second succeeds and changes nothing, and
when the first call raises, the single call raises identically. -/
theorem off_idempotent (st : Events) (event : Option String)
    (callback context : JsVal) :
    (EventMixin.off st event callback context).bind
        (fun st' => EventMixin.off st' event callback context)
      = EventMixin.off st event callback context := by
  by_cases h1 : callback = JsVal.undef ∧ context = JsVal.undef ∧ event = none
  · obtain ⟨hc, hx, he⟩ := h1
    subst hc; subst hx; subst he
    simp [EventMixin.off, Except.bind]
  · by_cases h2 : callback = JsVal.undef ∧ context = JsVal.undef
    · have he : event ≠ none := fun h => h1 ⟨h2.1, h2.2, h⟩
      cases hlk : lookupEv st (evKey event) with
      | none => simp [EventMixin.off, h1, h2, he, hlk, Except.bind]
      | some subs =>
          simp [EventMixin.off, h1, h2, he, hlk, Except.bind,
            lookupEv_setEv_self, setEv_setEv]
    · by_cases h3 : context = JsVal.undef
      · have hcb : ¬ callback = JsVal.undef := fun h => h2 ⟨h, h3⟩
        cases hlk : lookupEv st (evKey event) with
        | none => simp [EventMixin.off, h1, h2, h3, hcb, hlk, Except.bind]
        | some subs =>
            simp [EventMixin.off, h1, h2, h3, hcb, hlk, Except.bind,
              lookupEv_setEv_self, setEv_setEv, offLoop_eq_filter, filter_idem]
      · cases hlk : lookupEv st (evKey event) with
        | none => simp [EventMixin.off, h1, h2, h3, hlk, Except.bind]
        | some subs =>
            simp [EventMixin.off, h1, h2, h3, hlk, Except.bind,
              lookupEv_setEv_self, setEv_setEv, offLoop_eq_filter, filter_idem]

/-- C9 (counterexample): `undefined` is a falsy non-null context value and
registering with it stores the null sentinel, yet `off(e, f, undefined)`
with that same value does remove the subscription — an `undefined` context
argument selects the remove-by-callback-only branch. -/
theorem off_undef_context_still_removes :
    truthy JsVal.undef = false ∧ JsVal.undef ≠ JsVal.null ∧
      EventMixin.on [] "e" (JsVal.fn 0) JsVal.undef
        = [("e", [Sub.mk (JsVal.fn 0) JsVal.null])] ∧
      EventMixin.off (EventMixin.on [] "e" (JsVal.fn 0) JsVal.undef)
        (some "e") (JsVal.fn 0) JsVal.undef = Except.ok [("e", [])] :=
  ⟨rfl, by decide, rfl, rfl⟩

/-- C9 (amended): for an invocable callback `f` and any falsy context `c`,
`on` stores the subscription with the null sentinel as its context; a
later `off(e, f, c')` with `c'` a falsy value other than null — and other
than undefined, which is the omitted-context form and removes regardless
of context — leaves that subscription in place, while `off(e, f, null)`
removes it. -/
theorem on_falsy_context_stores_null_sentinel (st : Events) (e : String)
    (f c c' : JsVal) (hf : isFunction f = true) (hc : truthy c = false)
    (_hc1 : truthy c' = false) (hc2 : c' ≠ JsVal.null) (hc3 : c' ≠ JsVal.undef) :
    lookupEv (EventMixin.on st e f c) e
        = some ((lookupEv st e).getD [] ++ [Sub.mk f JsVal.null]) ∧
      (∃ st₁, EventMixin.off (EventMixin.on st e f c) (some e) f c'
            = Except.ok st₁ ∧
          Sub.mk f JsVal.null ∈ (lookupEv st₁ e).getD []) ∧
      (∃ st₂, EventMixin.off (EventMixin.on st e f c) (some e) f JsVal.null
            = Except.ok st₂ ∧
          Sub.mk f JsVal.null ∉ (lookupEv st₂ e).getD []) := by
  have hon : EventMixin.on st e f c
      = setEv st e ((lookupEv st e).getD [] ++ [Sub.mk f JsVal.null]) := by
    simp [EventMixin.on, hf, hc]
  have hlk : lookupEv (EventMixin.on st e f c) e
      = some ((lookupEv st e).getD [] ++ [Sub.mk f JsVal.null]) := by
    rw [hon]; exact lookupEv_setEv_self st e _
  refine ⟨hlk, ?_, ?_⟩
  · refine ⟨_, off_branch4 (EventMixin.on st e f c) e f c' _ hc3 hlk, ?_⟩
    rw [lookupEv_setEv_self]
    simp only [Option.getD_some]
    apply List.mem_filter.mpr
    refine ⟨List.mem_append_right _ (List.mem_singleton_self _), ?_⟩
    have hb : (JsVal.null == c') = false :=
      beq_eq_false_iff_ne.mpr (fun hh => hc2 hh.symm)
    simp [hb]
  · refine ⟨_, off_branch4 (EventMixin.on st e f c) e f JsVal.null _
      (by decide) hlk, ?_⟩
    rw [lookupEv_setEv_self]
    simp only [Option.getD_some]
    intro hmem
    have hpred := (List.mem_filter.mp hmem).2
    simp at hpred

/-- C9 witness for the amended claim: `on("e", f₀, 0)` stores the null
sentinel; `off("e", f₀, "")` (a different falsy non-null value) leaves the
subscription; `off("e", f₀, null)` removes it. -/
theorem on_falsy_context_stores_null_sentinel_witness :
    isFunction (JsVal.fn 0) = true ∧ truthy (JsVal.num 0) = false ∧
      truthy (JsVal.str "") = false ∧ JsVal.str "" ≠ JsVal.null ∧
      JsVal.str "" ≠ JsVal.undef ∧
      (lookupEv (EventMixin.on [] "e" (JsVal.fn 0) (JsVal.num 0)) "e"
          = some [Sub.mk (JsVal.fn 0) JsVal.null] ∧
        (∃ st₁, EventMixin.off (EventMixin.on [] "e" (JsVal.fn 0) (JsVal.num 0))
              (some "e") (JsVal.fn 0) (JsVal.str "") = Except.ok st₁ ∧
            Sub.mk (JsVal.fn 0) JsVal.null ∈ (lookupEv st₁ "e").getD []) ∧
        (∃ st₂, EventMixin.off (EventMixin.on [] "e" (JsVal.fn 0) (JsVal.num 0))
              (some "e") (JsVal.fn 0) JsVal.null = Except.ok st₂ ∧
            Sub.mk (JsVal.fn 0) JsVal.null ∉ (lookupEv st₂ "e").getD [])) :=
  ⟨rfl, by decide, rfl, by decide, by decide,
    on_falsy_context_stores_null_sentinel [] "e" (JsVal.fn 0) (JsVal.num 0)
      (JsVal.str "") rfl (by decide) rfl (by decide) (by decide)⟩

end EventJs
